import Mathlib

/-!
# Verification of the tranco-python-package list acquisition and caching core

Shallow embedding of `src/tranco/tranco.py` (version 0.8.1).

Modelling conventions:
* Python strings are Lean `String`s; file contents are `List Char`
  (text read/written byte-for-byte).
* Python `dict` is an insertion-ordered association list; assignment
  (`d[k] = v`) replaces the value in place (`dictInsert`), lookup with a
  default (`d.get(k, dflt)`) is `dictGet?` + `Option.getD`.
* The `Tranco` object's observable state — the in-memory `cache_metadata`
  dict, the on-disk `metadata.json` contents, and the per-list cache files
  `<id>.csv` — is the record `TrancoState`.  `json.dump`/`json.load` of the
  metadata mapping round-trip, so the metadata file is stored as the
  mapping itself (`Option` = file present/absent).
* Network I/O is an oracle: each operation takes the HTTP response(s) the
  corresponding request(s) would receive.  A zip response body carries its
  parsed entry table (`none` = not a valid archive).
* Python exceptions become `Except TrancoError`:
  `ValueError` ↦ `invalidArgument`, `AttributeError` ↦ `listUnavailable`,
  zip extraction failures (`KeyError`/`BadZipFile`) ↦ `corruptArchive`,
  `FileNotFoundError` on `open` ↦ `fileNotFound`.
-/

/-- `enum TrancoCacheType(IntEnum)` from the source: `NOT_CACHED = 0`,
`CACHED_NOT_FULL = 1`, `CACHED_FULL = 2`. -/
inductive TrancoCacheType where
  | NOT_CACHED
  | CACHED_NOT_FULL
  | CACHED_FULL
deriving DecidableEq, Repr

/-- The integer value of the `IntEnum` member. -/
def TrancoCacheType.toNat : TrancoCacheType → Nat
  | .NOT_CACHED => 0
  | .CACHED_NOT_FULL => 1
  | .CACHED_FULL => 2

/-- Python `max(a, b)` on `IntEnum` values: compares the integer values and
returns the first maximal argument. -/
def cacheMax (a b : TrancoCacheType) : TrancoCacheType :=
  if b.toNat ≤ a.toNat then a else b

/-- Python dict assignment `d[k] = v`: replaces the value of an existing key
in place, otherwise appends the binding (dicts are insertion-ordered). -/
def dictInsert {α β : Type} [DecidableEq α] (k : α) (v : β) :
    List (α × β) → List (α × β)
  | [] => [(k, v)]
  | (k0, v0) :: rest =>
      if k0 = k then (k, v) :: rest else (k0, v0) :: dictInsert k v rest

/-- Python dict lookup `d.get(k)` as an `Option`. -/
def dictGet? {α β : Type} [DecidableEq α] (k : α) :
    List (α × β) → Option β
  | [] => none
  | (k0, v) :: rest => if k0 = k then some v else dictGet? k rest

/-- Exceptions raised by the embedded code, by the spec's names.
`invalidArgument` models Python `ValueError`, `listUnavailable` models
`AttributeError`, `corruptArchive` models zip extraction failures, and
`fileNotFound` models `FileNotFoundError` from `open`. -/
inductive TrancoError where
  | invalidArgument (msg : String)
  | listUnavailable (msg : String)
  | corruptArchive
  | fileNotFound
deriving DecidableEq, Repr

/-- File contents (the bytes of a cache file / HTTP body, read as text). -/
abbrev Bytes := List Char

/-- Observable state of a `Tranco` object together with its cache
directory: the on-disk `metadata.json` (absent or holding a serialized
mapping), the on-disk list files keyed by list id, and the in-memory
`self.cache_metadata` dict. -/
structure TrancoState where
  metadataFile : Option (List (String × TrancoCacheType))
  listFiles : List (String × Bytes)
  cacheMetadata : List (String × TrancoCacheType)
deriving DecidableEq, Repr

/-- An HTTP response with a plain body (`r.content` / `r.text`). -/
structure HttpResponse where
  status : Nat
  body : Bytes
deriving DecidableEq, Repr

/-- An HTTP response whose body is interpreted as a zip archive:
`archive` holds the entry table (name ↦ raw bytes), or `none` when the
body is not a valid archive. -/
structure ZipHttpResponse where
  status : Nat
  archive : Option (List (String × Bytes))
deriving DecidableEq, Repr

/-- An HTTP response with a decoded text body (`r.text`). -/
structure TextHttpResponse where
  status : Nat
  text : String
deriving DecidableEq, Repr

/-- Python truthiness of an `Optional[str]`: `None` and `""` are falsy. -/
def strTruthy : Option String → Bool
  | none => false
  | some s => !(s == "")

namespace Tranco

/-- `_write_cache_metadata`: `json.dump(self.cache_metadata, f)` — writes the
current in-memory mapping to `metadata.json`. -/
def write_cache_metadata (s : TrancoState) : TrancoState :=
  { s with metadataFile := some s.cacheMetadata }

/-- `_load_cache_metadata`: if `metadata.json` does not exist, first write the
(current, possibly non-empty) in-memory mapping; then read the file into
`self.cache_metadata`. -/
def load_cache_metadata (s : TrancoState) : TrancoState :=
  let s1 := match s.metadataFile with
    | none => write_cache_metadata s
    | some _ => s
  match s1.metadataFile with
  | some m => { s1 with cacheMetadata := m }
  | none => s1

/-- `_get_list_cache`: `self.cache_metadata.get(list_id, NOT_CACHED)`. -/
def get_list_cache (s : TrancoState) (list_id : String) : TrancoCacheType :=
  (dictGet? list_id s.cacheMetadata).getD .NOT_CACHED

/-- `_is_cached(list_id, full)`: raises `ValueError` on a falsy id; `False`
when not cached; when `full` is requested, also `False` when only the
truncated list is cached; otherwise `True`. -/
def is_cached (s : TrancoState) (list_id : Option String) (full : Bool) :
    Except TrancoError Bool :=
  match list_id with
  | none => .error (.invalidArgument "You must pass a list ID to cache a list.")
  | some lid =>
    if lid = "" then
      .error (.invalidArgument "You must pass a list ID to cache a list.")
    else
      let list_cache := get_list_cache s lid
      if list_cache = .NOT_CACHED then .ok false
      else if full ∧ list_cache = .CACHED_NOT_FULL then .ok false
      else .ok true

/-- `_add_to_cache(list_id, full)`: raises `ValueError` on a falsy id;
otherwise sets `cache_metadata[list_id] = max(CACHED_FULL if full else
CACHED_NOT_FULL, current)` and rewrites `metadata.json`. -/
def add_to_cache (s : TrancoState) (list_id : Option String) (full : Bool) :
    Except TrancoError TrancoState :=
  match list_id with
  | none => .error (.invalidArgument "You must pass a list ID to cache a list.")
  | some lid =>
    if lid = "" then
      .error (.invalidArgument "You must pass a list ID to cache a list.")
    else
      let newState :=
        cacheMax (if full then .CACHED_FULL else .CACHED_NOT_FULL)
          (get_list_cache s lid)
      .ok (write_cache_metadata
        { s with cacheMetadata := dictInsert lid newState s.cacheMetadata })

/-- `clear_cache`: removes every file in the cache directory (all list files
and `metadata.json`), then calls `_load_cache_metadata`. -/
def clear_cache (s : TrancoState) : TrancoState :=
  load_cache_metadata { s with metadataFile := none, listFiles := [] }

/-- `_get_list_id_for_date(date, subdomains)`: on status 200 returns
`r1.text` (as received), otherwise raises `AttributeError`.  The `date` and
`subdomains` arguments only shape the request URL; `r1` is the response
that request receives. -/
def get_list_id_for_date (r1 : TextHttpResponse) (date : String)
    (subdomains : Bool) : Except TrancoError String :=
  if r1.status = 200 then .ok r1.text
  else .error (.listUnavailable "The daily list for this date is currently unavailable.")

/-- `_download_full_file(list_id)`: `GET download/{id}/full`; on status 200
writes the body to the cache path; on any other status does nothing
(no write, no exception). -/
def download_full_file (r : HttpResponse) (list_id : String)
    (s : TrancoState) : TrancoState :=
  if r.status = 200 then
    { s with listFiles := dictInsert list_id r.body s.listFiles }
  else s

/-- `_download_zip_file(list_id)`: `GET download_daily/{id}` (response `r`).
On 200, open the body as a zip and write the raw bytes of the entry
`top-1m.csv` to the cache path (a missing entry or invalid archive
raises).  On 403, fall back to `GET download/{id}/1000000` (response
`r2`): write its body on 200, otherwise raise `AttributeError`.  On 502
and on every other status, raise `AttributeError`. -/
def download_zip_file (r : ZipHttpResponse) (r2 : HttpResponse)
    (list_id : String) (s : TrancoState) : Except TrancoError TrancoState :=
  if r.status = 200 then
    match r.archive with
    | none => .error .corruptArchive
    | some entries =>
      match dictGet? "top-1m.csv" entries with
      | none => .error .corruptArchive
      | some file_bytes =>
        .ok { s with listFiles := dictInsert list_id file_bytes s.listFiles }
  else if r.status = 403 then
    if r2.status = 200 then
      .ok { s with listFiles := dictInsert list_id r2.body s.listFiles }
    else
      .error (.listUnavailable "The daily list for this date is currently unavailable.")
  else if r.status = 502 then
    .error (.listUnavailable "This list is currently unavailable.")
  else
    .error (.listUnavailable "The daily list for this date is currently unavailable.")

/-- `_download_file(list_id, full)`: dispatches to the full or zip download,
then unconditionally calls `_add_to_cache(list_id, full)`.  `rFull` is the
response to `GET download/{id}/full`, `rZip` to `GET download_daily/{id}`,
`rFallback` to `GET download/{id}/1000000`. -/
def download_file (rFull : HttpResponse) (rZip : ZipHttpResponse)
    (rFallback : HttpResponse) (list_id : String) (full : Bool)
    (s : TrancoState) : Except TrancoError TrancoState := do
  let s1 ←
    if full then pure (download_full_file rFull list_id s)
    else download_zip_file rZip rFallback list_id s
  add_to_cache s1 (some list_id) full

end Tranco

/-! ## File-content parsing (`Tranco.list` lines 142–148, `TrancoList`) -/

/-- Split a character sequence on a separator character; like Python
`s.split(sep)` for a one-character separator (so `[]` yields `[[]]`). -/
def splitOnChar (c : Char) : List Char → List (List Char)
  | [] => [[]]
  | x :: xs =>
    match splitOnChar c xs with
    | [] => [[]]
    | y :: ys => if x = c then [] :: y :: ys else (x :: y) :: ys

/-- Python `str.splitlines()` restricted to `'\n'` terminators: splits on
newlines and drops the final empty piece produced by a trailing newline
(`"".splitlines() == []`, `"a\n".splitlines() == ["a"]`). -/
def pySplitlines (l : List Char) : List (List Char) :=
  let parts := splitOnChar '\n' l
  if parts.getLast? = some [] then parts.dropLast else parts

/-- The whitespace characters stripped by Python `str.rstrip()` (ASCII). -/
def isPySpace (c : Char) : Bool :=
  c = ' ' ∨ c = '\t' ∨ c = '\n' ∨ c = '\r' ∨ c = '\x0b' ∨ c = '\x0c'

/-- Python `line.rstrip()`: remove trailing whitespace. -/
def pyRstrip (l : List Char) : List Char :=
  (l.reverse.dropWhile isPySpace).reverse

/-- Python `x[x.index(',') + 1:]`: everything after the first comma, or
`none` when there is no comma (`str.index` raises `ValueError`). -/
def afterFirstComma : List Char → Option (List Char)
  | [] => none
  | x :: xs => if x = ',' then some xs else afterFirstComma xs

/-- The cached-file lines as read by `Tranco.list`: with `full`,
`f.read().splitlines()`; otherwise `[line.rstrip() for line in
islice(f, 1000000)]` (at most the first 1,000,000 lines, each with
trailing whitespace stripped). -/
def parseLines (full : Bool) (content : List Char) : List (List Char) :=
  if full then pySplitlines content
  else ((pySplitlines content).take 1000000).map pyRstrip

/-- `list(map(lambda x: x[x.index(',') + 1:], top_list_lines))`: the domain
column, in line order; `none` when some line has no comma. -/
def parseDomains (full : Bool) (content : List Char) :
    Option (List (List Char)) :=
  (parseLines full content).mapM afterFirstComma

/-- `parseDomains` over `String`s. -/
def parseDomainsS (full : Bool) (content : String) : Option (List String) :=
  (parseDomains full content.data).map (List.map (fun l => String.mk l))

/-- Modelled from the spec: "the response body text, trimmed" — surrounding
whitespace removed from both ends.  Used only to compare the spec's wording
with what the code returns. -/
def specTrim (s : String) : String :=
  String.mk (pyRstrip ((s.data.dropWhile isPySpace)))

/-! ## `TrancoList` (the result entity) -/

/-- `{domain: index for index, domain in enumerate(lst, start=i)}` folded
into an insertion-ordered dict `d`: `buildDictFrom i d lst` processes
`lst` assigning indices `i, i+1, …`, a later duplicate domain overwriting
the earlier value in place. -/
def buildDictFrom (i : Nat) (d : List (String × Int)) :
    List String → List (String × Int)
  | [] => d
  | x :: xs => buildDictFrom (i + 1) (dictInsert x (Int.ofNat i) d) xs

/-- `self.list = {domain: index for index, domain in enumerate(lst, start=1)}`. -/
def buildDict (lst : List String) : List (String × Int) :=
  buildDictFrom 1 [] lst

/-- The `TrancoList` object: `date`, `list_id`, `list_page`, and the
domain-to-rank dict. -/
structure TrancoListR where
  date : Option String
  list_id : String
  list_page : String
  dict : List (String × Int)
deriving DecidableEq, Repr

/-- `TrancoList.__init__(date, list_id, lst)`. -/
def TrancoListR.mk' (date : Option String) (list_id : String)
    (lst : List String) : TrancoListR :=
  { date := date
    list_id := list_id
    list_page := "https://tranco-list.eu/list/" ++ list_id ++ "/"
    dict := buildDict lst }

/-- The comparison used by `sorted(self.list, key=self.list.get)`: order the
dict items by rank (Python's sort is stable; ranks of distinct keys built
by `TrancoList.__init__` are distinct, so stability is not observable). -/
def rankLE (a b : String × Int) : Prop := a.2 ≤ b.2

instance : DecidableRel rankLE := fun a b => inferInstanceAs (Decidable (a.2 ≤ b.2))

instance : IsTotal (String × Int) rankLE := ⟨fun a b => le_total a.2 b.2⟩

instance : IsTrans (String × Int) rankLE := ⟨fun _ _ _ h1 h2 => le_trans h1 h2⟩

/-- `TrancoList.top(num)`: `sorted(self.list, key=self.list.get)[:num]` —
the dict's keys sorted by ascending rank, truncated to `num`. -/
def TrancoListR.top (t : TrancoListR) (num : Nat) : List String :=
  ((t.dict.insertionSort rankLE).map Prod.fst).take num

/-- `TrancoList.rank(domain)`: `self.list.get(domain, -1)`. -/
def TrancoListR.rank (t : TrancoListR) (domain : String) : Int :=
  (dictGet? domain t.dict).getD (-1)

/-! ## The full `Tranco.list` pipeline -/

/-- The environment a single `Tranco.list` call runs in: the computed
"yesterday" date string and the responses each possible request would
receive. -/
structure ListEnv where
  yesterday : String
  dailyListIdResp : TextHttpResponse
  fullResp : HttpResponse
  zipResp : ZipHttpResponse
  fallbackResp : HttpResponse
deriving Repr

namespace Tranco

/-- `Tranco.list(date, list_id, subdomains, full)`: rejects `date` together
with `list_id`; resolves the list id (defaulting a falsy or `"latest"`
date to yesterday); downloads unless `_is_cached`; reads and parses the
cache file; returns the `TrancoList` and the final state.  (The
`warn(...)` on `list_id and subdomains` has no effect on the result and is
not modelled.) -/
def list (env : ListEnv) (date : Option String) (list_id : Option String)
    (subdomains : Bool) (full : Bool) (s : TrancoState) :
    Except TrancoError (TrancoListR × TrancoState) := do
  if strTruthy date ∧ strTruthy list_id then
    throw (.invalidArgument "You can't pass a date as well as a list ID.")
  let resolved : Except TrancoError (Option String × String) :=
    if !(strTruthy list_id) then do
      let date1 : Option String :=
        if !(strTruthy date) || (date == some "latest") then some env.yesterday
        else date
      let lid ← get_list_id_for_date env.dailyListIdResp (date1.getD "")
        subdomains
      pure (date1, lid)
    else pure (date, list_id.getD "")
  let (date1, lid) ← resolved
  let cached ← is_cached s (some lid) full
  let s1 ←
    if cached then pure s
    else download_file env.fullResp env.zipResp env.fallbackResp lid full s
  match dictGet? lid s1.listFiles with
  | none => throw .fileNotFound
  | some content =>
    match parseDomains full content with
    | none => throw (.invalidArgument "substring not found")
    | some domains =>
      pure (TrancoListR.mk' date1 lid (domains.map (fun l => String.mk l)), s1)

end Tranco

/-- Helper for reasoning about `buildDictFrom`: the index (counting from
`i`) of the last occurrence of `k` in the list, if any. -/
def lastOccFrom (i : Nat) (k : String) : List String → Option Nat
  | [] => none
  | x :: xs =>
    match lastOccFrom (i + 1) k xs with
    | some n => some n
    | none => if x = k then some i else none

/-! ## Helper lemmas -/

theorem dictGet?_dictInsert {α β : Type} [DecidableEq α] (k k' : α) (v : β) :
    ∀ d : List (α × β), dictGet? k (dictInsert k' v d) =
      if k' = k then some v else dictGet? k d
  | [] => by simp [dictInsert, dictGet?]
  | (k0, v0) :: rest => by
    by_cases h0 : k0 = k'
    · subst h0
      by_cases h1 : k0 = k <;> simp [dictInsert, dictGet?, h1]
    · by_cases h1 : k0 = k
      · subst h1
        have hk : ¬ k' = k0 := fun h => h0 h.symm
        simp [dictInsert, dictGet?, h0, hk]
      · simp [dictInsert, dictGet?, h0, h1, dictGet?_dictInsert k k' v rest]

theorem mem_keys_dictInsert {α β : Type} [DecidableEq α] (x k : α) (v : β) :
    ∀ d : List (α × β), x ∈ (dictInsert k v d).map Prod.fst ↔
      x ∈ d.map Prod.fst ∨ x = k
  | [] => by simp [dictInsert]
  | (k0, v0) :: rest => by
    by_cases h0 : k0 = k
    · subst h0; simp [dictInsert]; tauto
    · simp [dictInsert, h0, mem_keys_dictInsert x k v rest]; tauto

theorem nodup_keys_dictInsert {α β : Type} [DecidableEq α] (k : α) (v : β) :
    ∀ d : List (α × β), (d.map Prod.fst).Nodup →
      ((dictInsert k v d).map Prod.fst).Nodup
  | [], _ => by simp [dictInsert]
  | (k0, v0) :: rest, h => by
    rw [List.map_cons, List.nodup_cons] at h
    by_cases h0 : k0 = k
    · subst h0; simpa [dictInsert] using h
    · rw [dictInsert, if_neg h0, List.map_cons, List.nodup_cons]
      refine ⟨fun hmem => ?_, nodup_keys_dictInsert k v rest h.2⟩
      rcases (mem_keys_dictInsert k0 k v rest).1 hmem with h1 | h1
      · exact h.1 h1
      · exact h0 h1

theorem dictGet?_eq_of_mem {α β : Type} [DecidableEq α] :
    ∀ (d : List (α × β)), (d.map Prod.fst).Nodup → ∀ p : α × β, p ∈ d →
      dictGet? p.1 d = some p.2
  | [], _, p, hp => by simp at hp
  | (k0, v0) :: rest, h, p, hp => by
    rw [List.map_cons, List.nodup_cons] at h
    rcases List.mem_cons.1 hp with h1 | h1
    · subst h1; simp [dictGet?]
    · have hne : ¬ k0 = p.1 := by
        intro he
        have hm : p.1 ∈ rest.map Prod.fst := List.mem_map_of_mem Prod.fst h1
        rw [← he] at hm
        exact h.1 hm
      rw [dictGet?, if_neg hne]
      exact dictGet?_eq_of_mem rest h.2 p h1

theorem dictGet?_buildDictFrom (k : String) :
    ∀ (lst : List String) (i : Nat) (d : List (String × Int)),
      dictGet? k (buildDictFrom i d lst) =
        match lastOccFrom i k lst with
        | some n => some (Int.ofNat n)
        | none => dictGet? k d
  | [], i, d => by simp [buildDictFrom, lastOccFrom]
  | x :: xs, i, d => by
    rw [buildDictFrom, dictGet?_buildDictFrom k xs (i + 1) _, lastOccFrom]
    cases h : lastOccFrom (i + 1) k xs with
    | some n => simp
    | none =>
      by_cases hx : x = k <;>
        simp [hx, dictGet?_dictInsert, dictGet?]

theorem lastOccFrom_eq_none (k : String) :
    ∀ (lst : List String) (i : Nat), (∀ j, lst.get? j ≠ some k) →
      lastOccFrom i k lst = none
  | [], i, _ => rfl
  | x :: xs, i, h => by
    have hx : ¬ x = k := by
      intro he; exact h 0 (by simp [he])
    have htail : ∀ j, xs.get? j ≠ some k := fun j => h (j + 1)
    rw [lastOccFrom, lastOccFrom_eq_none k xs (i + 1) htail]
    simp [hx]

theorem lastOccFrom_eq_of_last (k : String) :
    ∀ (lst : List String) (idx i : Nat), lst.get? idx = some k →
      (∀ j, idx < j → lst.get? j ≠ some k) →
      lastOccFrom i k lst = some (i + idx)
  | [], idx, i, h1, _ => by simp at h1
  | x :: xs, 0, i, h1, h2 => by
    have hx : x = k := by simpa using h1
    have htail : ∀ j, xs.get? j ≠ some k := fun j =>
      h2 (j + 1) (Nat.succ_pos j)
    rw [lastOccFrom, lastOccFrom_eq_none k xs (i + 1) htail]
    simp [hx]
  | x :: xs, idx + 1, i, h1, h2 => by
    have h1t : xs.get? idx = some k := by simpa using h1
    have h2t : ∀ j, idx < j → xs.get? j ≠ some k := fun j hj =>
      h2 (j + 1) (Nat.succ_lt_succ hj)
    rw [lastOccFrom, lastOccFrom_eq_of_last k xs idx (i + 1) h1t h2t]
    simp; omega

theorem nodup_keys_buildDictFrom :
    ∀ (lst : List String) (i : Nat) (d : List (String × Int)),
      (d.map Prod.fst).Nodup → ((buildDictFrom i d lst).map Prod.fst).Nodup
  | [], _, _, h => h
  | x :: xs, i, d, h =>
    nodup_keys_buildDictFrom xs (i + 1) _ (nodup_keys_dictInsert x _ d h)

theorem nodup_keys_buildDict (lst : List String) :
    ((buildDict lst).map Prod.fst).Nodup :=
  nodup_keys_buildDictFrom lst 1 [] (by simp)

theorem pairwise_strengthen_of_mem {α : Type} {R S : α → α → Prop} :
    ∀ {l : List α}, (∀ a b, a ∈ l → b ∈ l → R a b → S a b) →
      l.Pairwise R → l.Pairwise S
  | [], _, _ => List.Pairwise.nil
  | x :: xs, h, hp => by
    rw [List.pairwise_cons] at hp ⊢
    refine ⟨fun b hb => h x b (by simp) (by simp [hb]) (hp.1 b hb), ?_⟩
    exact pairwise_strengthen_of_mem
      (fun a b ha hb => h a b (by simp [ha]) (by simp [hb])) hp.2

theorem dropWhile_self_idem {α : Type} (p : α → Bool) :
    ∀ l : List α, (l.dropWhile p).dropWhile p = l.dropWhile p
  | [] => rfl
  | x :: xs => by
    by_cases h : p x
    · simp [List.dropWhile_cons, h, dropWhile_self_idem p xs]
    · simp [List.dropWhile_cons, h]

theorem pyRstrip_idem (l : List Char) : pyRstrip (pyRstrip l) = pyRstrip l := by
  unfold pyRstrip
  rw [List.reverse_reverse, dropWhile_self_idem]

theorem toNat_le_cacheMax (a b : TrancoCacheType) :
    b.toNat ≤ (cacheMax a b).toNat := by
  unfold cacheMax
  split
  · assumption
  · exact Nat.le_refl _

theorem cacheMax_full_left (c : TrancoCacheType) :
    cacheMax .CACHED_FULL c = .CACHED_FULL := by
  cases c <;> rfl

/-! ## Claim theorems -/

/-- C1: the claim "a failed full download never leaves the cache-metadata
entry marked cached-full" is violated by the code: `_download_file`
calls `_add_to_cache(list_id, full)` unconditionally, while
`_download_full_file` silently does nothing on a non-200 status.  Starting
from an empty cache, a full download answered with status 404 ends with
the metadata entry at `CACHED_FULL` (`isCached(id, true)` is `true`)
although no cache file was written. -/
theorem failedFullDownload_still_marksCachedFull :
    Tranco.download_file ⟨404, []⟩ ⟨0, none⟩ ⟨0, []⟩ "X123" true
        ⟨some [], [], []⟩ =
      .ok ⟨some [("X123", .CACHED_FULL)], [], [("X123", .CACHED_FULL)]⟩ ∧
    Tranco.is_cached ⟨some [("X123", .CACHED_FULL)], [], [("X123", .CACHED_FULL)]⟩
      (some "X123") true = .ok true ∧
    dictGet? "X123"
      (⟨some [("X123", .CACHED_FULL)], [], [("X123", .CACHED_FULL)]⟩ :
        TrancoState).listFiles = none :=
  ⟨rfl, rfl, rfl⟩

/-- C2: the claim "after clearCache(), isCached returns false for every
previously cached id" is violated by the code: `clear_cache` deletes the
files but never resets the in-memory `cache_metadata`, and the subsequent
`_load_cache_metadata` finds `metadata.json` absent and rewrites the stale
in-memory mapping back to disk.  Marking "X" cached-full and then clearing
leaves `isCached("X", *)` equal to `true` while all list files are gone. -/
theorem clearCache_resurrects_stale_metadata :
    (Tranco.add_to_cache ⟨some [], [], []⟩ (some "X") true).map
      (fun s => Tranco.is_cached (Tranco.clear_cache s) (some "X") true) =
      .ok (.ok true) ∧
    (Tranco.clear_cache
      ⟨some [("X", .CACHED_FULL)], [("X", [])], [("X", .CACHED_FULL)]⟩).listFiles
      = [] ∧
    Tranco.is_cached
      (Tranco.clear_cache
        ⟨some [("X", .CACHED_FULL)], [("X", [])], [("X", .CACHED_FULL)]⟩)
      (some "X") true = .ok true ∧
    Tranco.is_cached
      (Tranco.clear_cache
        ⟨some [("X", .CACHED_FULL)], [("X", [])], [("X", .CACHED_FULL)]⟩)
      (some "X") false = .ok true :=
  ⟨rfl, rfl, rfl, rfl⟩

/-- C3 counterexample: `_get_list_id_for_date` does NOT trim the response
body: on status 200 with body `" LJ34N \n"` it returns `" LJ34N \n"`
verbatim, which differs from the trimmed identifier `"LJ34N"` the claim
prescribes. -/
theorem dateLookup_does_not_trim :
    Tranco.get_list_id_for_date ⟨200, " LJ34N \n"⟩ "2024-01-01" false =
      .ok " LJ34N \n" ∧
    specTrim " LJ34N \n" = "LJ34N" ∧
    (" LJ34N \n" : String) ≠ "LJ34N" :=
  ⟨rfl, rfl, by decide⟩

/-- C3 (amended): resolving a concrete date returns the response body text
exactly as received (untrimmed) on status 200, and fails with
`ListUnavailable` on any non-200 status. -/
theorem dateLookup_raw_text_or_unavailable (r1 : TextHttpResponse)
    (date : String) (subdomains : Bool) :
    (r1.status = 200 →
      Tranco.get_list_id_for_date r1 date subdomains = .ok r1.text) ∧
    (r1.status ≠ 200 →
      Tranco.get_list_id_for_date r1 date subdomains =
        .error (.listUnavailable
          "The daily list for this date is currently unavailable.")) := by
  constructor <;> intro h <;> simp [Tranco.get_list_id_for_date, h]

/-- C3 witness: the amended theorem applied at a concrete response. -/
theorem dateLookup_raw_text_or_unavailable_at_200 :
    Tranco.get_list_id_for_date ⟨200, "LJ34N"⟩ "2024-01-01" false =
      .ok "LJ34N" :=
  (dateLookup_raw_text_or_unavailable ⟨200, "LJ34N"⟩ "2024-01-01" false).1 rfl

/-- C4: for a non-empty id, `_add_to_cache(id, full)` succeeds, sets the
stored state to `max(CachedFull if full else CachedTruncated, current)`,
never lowers the state, persists the mapping, and after marking full a
later truncated marking leaves the state at `CACHED_FULL`. -/
theorem markCached_max_and_never_regresses (s : TrancoState) (lid : String)
    (full : Bool) (h : lid ≠ "") :
    ∃ s', Tranco.add_to_cache s (some lid) full = .ok s' ∧
      Tranco.get_list_cache s' lid =
        cacheMax (if full then .CACHED_FULL else .CACHED_NOT_FULL)
          (Tranco.get_list_cache s lid) ∧
      (Tranco.get_list_cache s lid).toNat ≤ (Tranco.get_list_cache s' lid).toNat ∧
      s'.metadataFile = some s'.cacheMetadata ∧
      (∀ s2 s3, Tranco.add_to_cache s (some lid) true = .ok s2 →
        Tranco.add_to_cache s2 (some lid) false = .ok s3 →
        Tranco.get_list_cache s3 lid = .CACHED_FULL) := by
  refine ⟨Tranco.write_cache_metadata
    { s with
      cacheMetadata :=
        dictInsert lid
          (cacheMax (if full then .CACHED_FULL else .CACHED_NOT_FULL)
            (Tranco.get_list_cache s lid)) s.cacheMetadata }, ?_, ?_, ?_, ?_, ?_⟩
  · simp [Tranco.add_to_cache, h]
  · simp [Tranco.get_list_cache, Tranco.write_cache_metadata, dictGet?_dictInsert]
  · simp only [Tranco.get_list_cache, Tranco.write_cache_metadata,
      dictGet?_dictInsert, if_pos rfl, Option.getD_some]
    exact toNat_le_cacheMax _ _
  · rfl
  · intro s2 s3 h2 h3
    simp only [Tranco.add_to_cache, if_neg h, Except.ok.injEq] at h2
    subst h2
    simp only [Tranco.add_to_cache, if_neg h, Except.ok.injEq] at h3
    subst h3
    simp only [Tranco.get_list_cache, Tranco.write_cache_metadata,
      dictGet?_dictInsert, if_pos rfl, Option.getD_some, cacheMax]
    generalize (dictGet? lid s.cacheMetadata).getD TrancoCacheType.NOT_CACHED = c
    cases c <;> rfl

/-- C4 witness: the theorem applied at the empty state, id `"a"`,
`full = true`. -/
theorem markCached_max_and_never_regresses_at_a :
    ∃ s', Tranco.add_to_cache ⟨some [], [], []⟩ (some "a") true = .ok s' ∧
      Tranco.get_list_cache s' "a" =
        cacheMax (if true then .CACHED_FULL else .CACHED_NOT_FULL)
          (Tranco.get_list_cache ⟨some [], [], []⟩ "a") ∧
      (Tranco.get_list_cache ⟨some [], [], []⟩ "a").toNat ≤
        (Tranco.get_list_cache s' "a").toNat ∧
      s'.metadataFile = some s'.cacheMetadata ∧
      (∀ s2 s3, Tranco.add_to_cache ⟨some [], [], []⟩ (some "a") true = .ok s2 →
        Tranco.add_to_cache s2 (some "a") false = .ok s3 →
        Tranco.get_list_cache s3 "a" = .CACHED_FULL) :=
  markCached_max_and_never_regresses ⟨some [], [], []⟩ "a" true (by decide)

/-- C6: `_is_cached` fails with `InvalidArgument` on an absent or empty id;
returns `false` when the stored state is `NOT_CACHED` (in particular for
any id absent from the metadata mapping); with `full = true` also returns
`false` on `CACHED_NOT_FULL`; and returns `true` in every other case. -/
theorem isCached_case_analysis (s : TrancoState) (lid : String) (full : Bool)
    (h : lid ≠ "") :
    Tranco.is_cached s none full =
      .error (.invalidArgument "You must pass a list ID to cache a list.") ∧
    Tranco.is_cached s (some "") full =
      .error (.invalidArgument "You must pass a list ID to cache a list.") ∧
    (Tranco.get_list_cache s lid = .NOT_CACHED →
      Tranco.is_cached s (some lid) full = .ok false) ∧
    (full = true → Tranco.get_list_cache s lid = .CACHED_NOT_FULL →
      Tranco.is_cached s (some lid) full = .ok false) ∧
    (Tranco.get_list_cache s lid ≠ .NOT_CACHED →
      ¬(full = true ∧ Tranco.get_list_cache s lid = .CACHED_NOT_FULL) →
      Tranco.is_cached s (some lid) full = .ok true) ∧
    (dictGet? lid s.cacheMetadata = none →
      Tranco.is_cached s (some lid) full = .ok false) := by
  refine ⟨rfl, rfl, ?_, ?_, ?_, ?_⟩
  · intro hnc
    simp [Tranco.is_cached, h, hnc]
  · intro hf hcnf
    simp [Tranco.is_cached, h, hcnf, hf]
  · intro h1 h2
    cases hc : Tranco.get_list_cache s lid with
    | NOT_CACHED => exact absurd hc h1
    | CACHED_NOT_FULL =>
      cases full with
      | true => exact absurd ⟨rfl, hc⟩ h2
      | false => simp [Tranco.is_cached, h, hc]
    | CACHED_FULL => simp [Tranco.is_cached, h, hc]
  · intro hnone
    simp [Tranco.is_cached, Tranco.get_list_cache, h, hnone]

/-- C6 witness: the case analysis applied at the empty state, id `"a"`,
`full = true`, with each reachable case discharged. -/
theorem isCached_case_analysis_at_empty :
    Tranco.is_cached ⟨some [], [], []⟩ (some "a") true = .ok false :=
  (isCached_case_analysis ⟨some [], [], []⟩ "a" true (by decide)).2.2.2.2.2 rfl

/-- C9: calling `Tranco.list` with both a (non-empty) date and a
(non-empty) list id fails with `InvalidArgument`, whatever the network
environment and cache state — the guard runs before any network or cache
activity, so the result does not depend on them. -/
theorem list_rejects_date_with_list_id (env : ListEnv) (d lid : String)
    (subdomains full : Bool) (s : TrancoState) (hd : d ≠ "") (hl : lid ≠ "") :
    Tranco.list env (some d) (some lid) subdomains full s =
      .error (.invalidArgument "You can't pass a date as well as a list ID.") := by
  have h1 : strTruthy (some d) = true := by simp [strTruthy, hd]
  have h2 : strTruthy (some lid) = true := by simp [strTruthy, hl]
  simp only [Tranco.list, h1, h2, and_self, if_true, reduceIte]
  rfl

/-- C9 witness: the rejection at a concrete call. -/
theorem list_rejects_date_with_list_id_at_concrete :
    Tranco.list ⟨"2024-01-01", ⟨200, "LJ"⟩, ⟨200, []⟩, ⟨200, some []⟩, ⟨200, []⟩⟩
      (some "2024-01-01") (some "LJ34N") false false ⟨some [], [], []⟩ =
      .error (.invalidArgument "You can't pass a date as well as a list ID.") :=
  list_rejects_date_with_list_id _ "2024-01-01" "LJ34N" false false _
    (by decide) (by decide)

/-- C5: case analysis of the truncated-download path: on 200 the
`top-1m.csv` entry's raw bytes are written to the cache path; on 403 the
fallback body is written when it answers 200 and otherwise the call fails
with `ListUnavailable`; on 502 and on every other non-200 status the call
fails with `ListUnavailable`. -/
theorem truncatedDownload_case_analysis (r : ZipHttpResponse)
    (r2 : HttpResponse) (lid : String) (s : TrancoState) :
    (∀ entries bs, r.status = 200 → r.archive = some entries →
      dictGet? "top-1m.csv" entries = some bs →
      Tranco.download_zip_file r r2 lid s =
        .ok { s with listFiles := dictInsert lid bs s.listFiles }) ∧
    (r.status = 403 → r2.status = 200 →
      Tranco.download_zip_file r r2 lid s =
        .ok { s with listFiles := dictInsert lid r2.body s.listFiles }) ∧
    (r.status = 403 → r2.status ≠ 200 →
      Tranco.download_zip_file r r2 lid s =
        .error (.listUnavailable
          "The daily list for this date is currently unavailable.")) ∧
    (r.status = 502 →
      Tranco.download_zip_file r r2 lid s =
        .error (.listUnavailable "This list is currently unavailable.")) ∧
    (r.status ≠ 200 → r.status ≠ 403 → r.status ≠ 502 →
      Tranco.download_zip_file r r2 lid s =
        .error (.listUnavailable
          "The daily list for this date is currently unavailable.")) := by
  refine ⟨?_, ?_, ?_, ?_, ?_⟩
  · intro entries bs h200 harch hentry
    simp [Tranco.download_zip_file, h200, harch, hentry]
  · intro h403 h200
    simp [Tranco.download_zip_file, h403, h200]
  · intro h403 hne
    simp [Tranco.download_zip_file, h403, hne]
  · intro h502
    simp [Tranco.download_zip_file, h502]
  · intro hne200 hne403 hne502
    simp [Tranco.download_zip_file, hne200, hne403, hne502]

/-- C5 witness: the 200 case at a concrete zip archive. -/
theorem truncatedDownload_case_analysis_at_200 :
    Tranco.download_zip_file ⟨200, some [("top-1m.csv", ['1'])]⟩ ⟨0, []⟩ "L"
        ⟨some [], [], []⟩ =
      .ok { (⟨some [], [], []⟩ : TrancoState) with
              listFiles := dictInsert "L" ['1'] [] } :=
  (truncatedDownload_case_analysis ⟨200, some [("top-1m.csv", ['1'])]⟩ ⟨0, []⟩
    "L" ⟨some [], [], []⟩).1 [("top-1m.csv", ['1'])] ['1'] rfl rfl rfl

/-- C7 counterexample: in the full path the code strips only the line
terminator, not other trailing whitespace: parsing `"1,example.com \n"`
(note the trailing space) with `full = true` yields `"example.com "`, not
the whitespace-stripped `"example.com"` the claim prescribes. -/
theorem fullParse_keeps_trailing_space :
    parseDomainsS true "1,example.com \n" = some ["example.com "] ∧
    pyRstrip "example.com ".data = "example.com".data ∧
    ("example.com " : String) ≠ "example.com" :=
  ⟨rfl, rfl, by decide⟩

/-- C7 (amended): parsing discards, on each line, everything up to and
including the first comma and keeps the remainder in line order; in the
truncated path each kept line has trailing whitespace stripped (in the
full path only line terminators are removed — see the counterexample);
the sample content `"1,example.com\n2,test.org\n"` parses to
`["example.com", "test.org"]` in both modes, the resulting `TrancoList`
has `rank "example.com" = 1`, rank `-1` for the absent `"missing.tld"`,
and lookup is case-sensitive exact match. -/
theorem parse_after_first_comma_and_sample (pre post : List Char)
    (hpre : ',' ∉ pre) :
    afterFirstComma (pre ++ ',' :: post) = some post ∧
    (∀ content l, l ∈ parseLines false content → pyRstrip l = l) ∧
    parseDomainsS true "1,example.com\n2,test.org\n" =
      some ["example.com", "test.org"] ∧
    parseDomainsS false "1,example.com\n2,test.org\n" =
      some ["example.com", "test.org"] ∧
    (TrancoListR.mk' none "LID" ["example.com", "test.org"]).rank "example.com"
      = 1 ∧
    (TrancoListR.mk' none "LID" ["example.com", "test.org"]).rank "missing.tld"
      = -1 ∧
    (TrancoListR.mk' none "LID" ["example.com", "test.org"]).rank "Example.com"
      = -1 := by
  refine ⟨?_, ?_, rfl, rfl, rfl, rfl, rfl⟩
  · induction pre with
    | nil => simp [afterFirstComma]
    | cons x xs ih =>
      have hx : ¬ x = ',' := by
        intro he
        subst he
        exact hpre (List.mem_cons_self _ _)
      simp only [List.cons_append, afterFirstComma, if_neg hx]
      exact ih (fun hm => hpre (List.mem_cons_of_mem x hm))
  · intro content l hl
    simp only [parseLines, Bool.false_eq_true, if_false] at hl
    rcases List.mem_map.1 hl with ⟨x, _, rfl⟩
    exact pyRstrip_idem x

/-- C7 witness: the comma-discarding property at a concrete line. -/
theorem parse_after_first_comma_at_concrete :
    afterFirstComma ("1".data ++ ',' :: "ab".data) = some "ab".data :=
  (parse_after_first_comma_and_sample "1".data "ab".data (by decide)).1

/-- C8: `TrancoList.top n` lists domains in ascending rank order, has
`min n size` elements, is the `n`-prefix of the full sorted order, equals
the whole (sorted) domain list whenever `n` is at least the dict size,
and on the two-element sample `top 1 = ["example.com"]` and
`top 100` returns both domains. -/
theorem topN_sorted_ascending_order (d0 : Option String) (lid : String)
    (lst : List String) (n : Nat) :
    ((TrancoListR.mk' d0 lid lst).top n).Pairwise
      (fun a b => (TrancoListR.mk' d0 lid lst).rank a ≤
        (TrancoListR.mk' d0 lid lst).rank b) ∧
    ((TrancoListR.mk' d0 lid lst).top n).length =
      min n (TrancoListR.mk' d0 lid lst).dict.length ∧
    ((TrancoListR.mk' d0 lid lst).top n =
      ((TrancoListR.mk' d0 lid lst).top
        (TrancoListR.mk' d0 lid lst).dict.length).take n) ∧
    ((TrancoListR.mk' d0 lid lst).dict.length ≤ n →
      (TrancoListR.mk' d0 lid lst).top n =
        (TrancoListR.mk' d0 lid lst).top
          (TrancoListR.mk' d0 lid lst).dict.length ∧
      ((TrancoListR.mk' d0 lid lst).top n).Perm
        ((TrancoListR.mk' d0 lid lst).dict.map Prod.fst)) ∧
    (TrancoListR.mk' none "X" ["example.com", "test.org"]).top 1 =
      ["example.com"] ∧
    (TrancoListR.mk' none "X" ["example.com", "test.org"]).top 100 =
      ["example.com", "test.org"] := by
  have hdict : (TrancoListR.mk' d0 lid lst).dict = buildDict lst := rfl
  have hperm : List.Perm ((buildDict lst).insertionSort rankLE)
      (buildDict lst) :=
    List.perm_insertionSort rankLE (buildDict lst)
  have hsorted : ((buildDict lst).insertionSort rankLE).Pairwise rankLE :=
    List.sorted_insertionSort rankLE (buildDict lst)
  have hnodup : ((buildDict lst).map Prod.fst).Nodup := nodup_keys_buildDict lst
  have hrank : ∀ p : String × Int, p ∈ (buildDict lst).insertionSort rankLE →
      (TrancoListR.mk' d0 lid lst).rank p.1 = p.2 := by
    intro p hp
    have hmem : p ∈ buildDict lst := hperm.mem_iff.1 hp
    show (dictGet? p.1 (buildDict lst)).getD (-1) = p.2
    rw [dictGet?_eq_of_mem (buildDict lst) hnodup p hmem]
    rfl
  have htop : ∀ m, (TrancoListR.mk' d0 lid lst).top m =
      (((buildDict lst).insertionSort rankLE).map Prod.fst).take m :=
    fun m => rfl
  have hlen : (((buildDict lst).insertionSort rankLE).map Prod.fst).length =
      (buildDict lst).length := by
    rw [List.length_map]
    exact hperm.length_eq
  have hfull : (((buildDict lst).insertionSort rankLE).map Prod.fst).take
      (buildDict lst).length =
      ((buildDict lst).insertionSort rankLE).map Prod.fst := by
    rw [← hlen]
    exact List.take_length _
  refine ⟨?_, ?_, ?_, ?_, rfl, rfl⟩
  · rw [htop]
    have hp : (((buildDict lst).insertionSort rankLE).map Prod.fst).Pairwise
        (fun a b => (TrancoListR.mk' d0 lid lst).rank a ≤
          (TrancoListR.mk' d0 lid lst).rank b) := by
      rw [List.pairwise_map]
      refine pairwise_strengthen_of_mem ?_ hsorted
      intro a b ha hb hr
      rw [hrank a ha, hrank b hb]
      exact hr
    exact hp.sublist (List.take_sublist n _)
  · rw [htop, List.length_take, hdict, hlen]
  · rw [htop, htop, hdict, hfull]
  · intro hle
    rw [hdict] at hle
    constructor
    · rw [htop, htop, hdict, hfull]
      exact List.take_of_length_le (hlen.le.trans hle)
    · rw [htop, hdict, List.take_of_length_le (hlen.le.trans hle)]
      exact hperm.map Prod.fst

/-- C8 witness: the sample conjunct extracted through the theorem. -/
theorem topN_sorted_ascending_order_at_sample :
    (TrancoListR.mk' none "X" ["example.com", "test.org"]).top 1 =
      ["example.com"] :=
  (topN_sorted_ascending_order none "X" ["example.com", "test.org"] 1).2.2.2.2.1

/-- C10: when a domain occurs more than once, the dict comprehension keeps
the last occurrence: `rank` returns the 1-based position of the final
occurrence, and on `["a.com", "b.com", "a.com"]` the `TrancoList` exposes
only 2 domains (fewer than the 3 input lines), with
`rank "a.com" = 3`. -/
theorem rank_keeps_last_duplicate (d0 : Option String) (lid : String)
    (lst : List String) (domain : String) (i : Nat)
    (h1 : lst.get? i = some domain)
    (h2 : ∀ j, i < j → lst.get? j ≠ some domain) :
    (TrancoListR.mk' d0 lid lst).rank domain = Int.ofNat (i + 1) ∧
    ((TrancoListR.mk' none "X" ["a.com", "b.com", "a.com"]).top 3).length = 2 ∧
    (TrancoListR.mk' none "X" ["a.com", "b.com", "a.com"]).rank "a.com" = 3 ∧
    (TrancoListR.mk' none "X" ["a.com", "b.com", "a.com"]).top 3 =
      ["b.com", "a.com"] := by
  refine ⟨?_, rfl, rfl, rfl⟩
  show (dictGet? domain (buildDict lst)).getD (-1) = Int.ofNat (i + 1)
  rw [buildDict, dictGet?_buildDictFrom domain lst 1 [],
    lastOccFrom_eq_of_last domain lst i 1 h1 h2]
  show Int.ofNat (1 + i) = Int.ofNat (i + 1)
  rw [Nat.add_comm]

/-- C10 witness: the last-occurrence rank at a concrete duplicated list. -/
theorem rank_keeps_last_duplicate_at_concrete :
    (TrancoListR.mk' none "Y" ["a.com", "b.com", "a.com"]).rank "a.com" =
      Int.ofNat 3 :=
  (rank_keeps_last_duplicate none "Y" ["a.com", "b.com", "a.com"] "a.com" 2 rfl
    (fun j hj => by
      have hnone : ["a.com", "b.com", "a.com"].get? j = none :=
        List.get?_eq_none.mpr hj
      intro hc
      rw [hnone] at hc
      cases hc)).1
